import Mathlib

/-!
# Verification of the pynmea2 core (`pynmea2/nmea.py`)

A shallow embedding of the NMEA 0183 sentence core: the sentence grammar
(`NMEASentence.sentence_re` and the three classification regexes), the checksum
engine, the dispatcher `NMEASentence.parse`, the renderer `NMEASentence.render`,
and the field-accessor `NMEASentence.__setattr__`.

Strings are modelled as `List Char` internally (Python `str` is a sequence of
code points; `Char.toNat` coincides with Python `ord`).  Character classes of
the regexes (`\w`, `\s`) are modelled on their ASCII fragment, which is the
protocol's alphabet; `str.upper` is likewise modelled as ASCII uppercasing.

The regular expressions are embedded as deterministic matchers.  Comments on
each definition record the regex fragment it implements and, where the regex
engine could in principle backtrack, why the deterministic reading computes
the same match (see `matchType` and `matchAfterDollar`).
-/

namespace PyNmea

/-- Python `\s` (ASCII fragment): space, `\t`, `\n`, `\r`, `\v`, `\f`. -/
def isPySpace (c : Char) : Bool :=
  c.toNat == 32 || c.toNat == 9 || c.toNat == 10 || c.toNat == 13 ||
  c.toNat == 11 || c.toNat == 12

/-- Python `\w` (ASCII fragment): `[0-9A-Za-z_]`. -/
def isWordChar (c : Char) : Bool :=
  (48 ≤ c.toNat && c.toNat ≤ 57) || (65 ≤ c.toNat && c.toNat ≤ 90) ||
  (97 ≤ c.toNat && c.toNat ≤ 122) || c.toNat == 95

/-- The checksum-suffix character class `[A-F0-9]` of `sentence_re`.  The
pattern is compiled with `re.IGNORECASE`, so the letters also match their
lowercase forms: the class is effectively `[A-Fa-f0-9]`. -/
def isHexUD (c : Char) : Bool :=
  (48 ≤ c.toNat && c.toNat ≤ 57) || (65 ≤ c.toNat && c.toNat ≤ 70) ||
  (97 ≤ c.toNat && c.toNat ≤ 102)

/-- Case-insensitive match of an uppercase literal letter (`re.IGNORECASE`):
`lit` is an uppercase ASCII letter; `c` matches `lit` or `lit + 32`. -/
def eqCI (c lit : Char) : Bool :=
  c.toNat == lit.toNat || c.toNat == lit.toNat + 32

/-- Python `str.upper` on one character (ASCII fragment). -/
def pyUpperChar (c : Char) : Char :=
  if 97 ≤ c.toNat ∧ c.toNat ≤ 122 then Char.ofNat (c.toNat - 32) else c

/-- Python `str.upper` (ASCII fragment). -/
def pyUpper (s : List Char) : List Char := s.map pyUpperChar

/-- `NMEASentence.checksum`: `reduce(operator.xor, map(ord, nmea_str), 0)`. -/
def checksum (s : List Char) : Nat :=
  s.foldl (fun a c => a ^^^ c.toNat) 0

/-- Value of one hex digit, as accepted by Python `int(_, 16)`. -/
def hexDigitVal (c : Char) : Nat :=
  if 48 ≤ c.toNat ∧ c.toNat ≤ 57 then c.toNat - 48
  else if 65 ≤ c.toNat ∧ c.toNat ≤ 70 then c.toNat - 55
  else if 97 ≤ c.toNat ∧ c.toNat ≤ 102 then c.toNat - 87
  else 0

/-- `int(checksum, 16)` on the two-character checksum group. -/
def hexVal (s : List Char) : Nat :=
  s.foldl (fun a c => 16 * a + hexDigitVal c) 0

/-- Hex digit character, uppercase (as produced by Python `'%X'`). -/
def hexDigit (n : Nat) : Char :=
  if n < 10 then Char.ofNat (48 + n) else Char.ofNat (55 + n)

/-- Hex digits, most significant first; empty for `0`.  Implemented with a
fuel argument (`n` itself suffices, since `n / 16 < n` for positive `n`) so
that the definition is structurally recursive and kernel-reducible. -/
def hexDigitsAux : Nat → Nat → List Char
  | _, 0 => []
  | 0, _ + 1 => []
  | f + 1, k + 1 => hexDigitsAux f ((k + 1) / 16) ++ [hexDigit ((k + 1) % 16)]

/-- Hex digits of `n`, most significant first; empty for `0`. -/
def hexDigits (n : Nat) : List Char := hexDigitsAux n n

/-- Python `'%02X' % n`: uppercase hex, left-padded with `'0'` to width 2
(wider than 2 characters when `n ≥ 256`). -/
def fmt02X (n : Nat) : List Char :=
  List.replicate (2 - (hexDigits n).length) '0' ++ hexDigits n

/-! ## The sentence grammar (`NMEASentence.sentence_re`)

```
^\s*\$?
(?P<nmea_str>
    (?P<sentence_type>
        (P\w{3})|(\w{2}\w{2}Q,\w{3})|(\w{2}\w{3},))
    (?P<data>[^*]*))
(?:[*](?P<checksum>[A-F0-9]{2}))?
\s*[\r\n]*$
```
compiled with `re.X | re.IGNORECASE` and applied with `re.match`. -/

/-- Result of a successful `sentence_re` match: the four named groups. -/
structure MatchResult where
  nmea_str : List Char
  sentence_type : List Char
  data : List Char
  checksum : Option (List Char)
  deriving Repr, DecidableEq

/-- Alternative `(P\w{3})` of the `sentence_type` group (case-insensitive
`P`).  Returns the consumed prefix and the rest. -/
def tryProprietary : List Char → Option (List Char × List Char)
  | c0 :: c1 :: c2 :: c3 :: rest =>
    if eqCI c0 'P' && isWordChar c1 && isWordChar c2 && isWordChar c3 then
      some ([c0, c1, c2, c3], rest)
    else none
  | _ => none

/-- Alternative `(\w{2}\w{2}Q,\w{3})` of the `sentence_type` group
(case-insensitive `Q`). -/
def tryQuery : List Char → Option (List Char × List Char)
  | c0 :: c1 :: c2 :: c3 :: c4 :: c5 :: c6 :: c7 :: c8 :: rest =>
    if isWordChar c0 && isWordChar c1 && isWordChar c2 && isWordChar c3 &&
        eqCI c4 'Q' && (c5 == ',') && isWordChar c6 && isWordChar c7 &&
        isWordChar c8 then
      some ([c0, c1, c2, c3, c4, c5, c6, c7, c8], rest)
    else none
  | _ => none

/-- Alternative `(\w{2}\w{3},)` of the `sentence_type` group. -/
def tryTalker : List Char → Option (List Char × List Char)
  | c0 :: c1 :: c2 :: c3 :: c4 :: c5 :: rest =>
    if isWordChar c0 && isWordChar c1 && isWordChar c2 && isWordChar c3 &&
        isWordChar c4 && (c5 == ',') then
      some ([c0, c1, c2, c3, c4, c5], rest)
    else none
  | _ => none

/-- The `sentence_type` alternation, in the pattern's order.

The regex engine would backtrack into a later alternative if the rest of the
pattern failed after an earlier one matched.  That cannot change the outcome
here: after any alternative, the rest of the pattern
(`[^*]*` `([*][A-F0-9]{2})?` `\s*[\r\n]*$`) succeeds iff the suffix of the
input starting at its first `*` is either absent or of the form
`*HH<whitespace>`, and the position of that first `*` does not depend on which
alternative matched (no alternative can consume a `*`: each consumes only
word characters and commas).  So "first alternative that matches here" is
exactly the alternative the engine commits to. -/
def matchType (cs : List Char) : Option (List Char × List Char) :=
  (tryProprietary cs).orElse fun _ =>
    (tryQuery cs).orElse fun _ => tryTalker cs

/-- The part of `sentence_re` after the optional `\s*\$?` prefix:
`sentence_type`, then `(?P<data>[^*]*)`, then the optional checksum group,
then `\s*[\r\n]*$`.

`[^*]*` is greedy and no backtracking past it can help: it cannot give back a
`*`, giving back a non-`*` character leaves `\s*[\r\n]*$` facing that same
non-whitespace-or-`*` position only when the character was trailing
whitespace already consumed greedily — in which case the greedy match already
succeeded.  Hence: the data group runs to the first `*` (or the end), and if
a `*` is present the input must continue with exactly two `[A-Fa-f0-9]`
characters followed by whitespace only.  Note that when no `*` is present the
data group swallows any trailing whitespace (the final `\s*[\r\n]*` matches
the empty string). -/
def matchAfterDollar (cs : List Char) : Option MatchResult :=
  match matchType cs with
  | none => none
  | some (st, rest) =>
    let ds := rest.takeWhile (· != '*')
    match rest.dropWhile (· != '*') with
    | [] => some ⟨st ++ ds, st, ds, none⟩
    | '*' :: h1 :: h2 :: rest2 =>
      if isHexUD h1 && isHexUD h2 && rest2.all isPySpace then
        some ⟨st ++ ds, st, ds, some [h1, h2]⟩
      else none
    | _ => none

/-- `sentence_re.match(line)`: `^\s*` then optional `\$` then the rest.
`\s*` is greedy and deterministic here (`$` and the first character of every
`sentence_type` alternative are not whitespace). -/
def sentenceMatch (line : List Char) : Option MatchResult :=
  let cs := line.dropWhile isPySpace
  match cs with
  | '$' :: r => matchAfterDollar r
  | r => matchAfterDollar r

/-! ## The classification regexes (applied to `sentence_type.upper()`)

`talker_re = ^(?P<talker>\w{2})(?P<sentence>\w{3}),$`,
`query_re = ^(?P<talker>\w{2})(?P<listener>\w{2})Q,(?P<sentence>\w{3})$`,
`proprietary_re = ^P(?P<manufacturer>\w{3})$` (all compiled without flags). -/

/-- `talker_re.match`: yields the `talker` and `sentence` groups. -/
def talkerMatch : List Char → Option (List Char × List Char)
  | [c0, c1, c2, c3, c4, c5] =>
    if isWordChar c0 && isWordChar c1 && isWordChar c2 && isWordChar c3 &&
        isWordChar c4 && (c5 == ',') then
      some ([c0, c1], [c2, c3, c4])
    else none
  | _ => none

/-- `query_re.match`: yields the `talker`, `listener` and `sentence` groups. -/
def queryMatch : List Char → Option (List Char × List Char × List Char)
  | [c0, c1, c2, c3, c4, c5, c6, c7, c8] =>
    if isWordChar c0 && isWordChar c1 && isWordChar c2 && isWordChar c3 &&
        (c4 == 'Q') && (c5 == ',') && isWordChar c6 && isWordChar c7 &&
        isWordChar c8 then
      some ([c0, c1], [c2, c3], [c6, c7, c8])
    else none
  | _ => none

/-- `proprietary_re.match`: yields the `manufacturer` group. -/
def propMatch : List Char → Option (List Char)
  | [c0, c1, c2, c3] =>
    if (c0 == 'P') && isWordChar c1 && isWordChar c2 && isWordChar c3 then
      some [c1, c2, c3]
    else none
  | _ => none

/-! ## Data model -/

/-- A field schema: the ordered `(label, name)` pairs of a concrete type. -/
abbrev Fields := List (String × String)

/-- The two registries (`TalkerSentence.sentence_types` keyed by sentence
code, `ProprietarySentence.sentence_types` keyed by manufacturer code).

Modelled from the spec: the catalog of concrete sentence definitions is an
external collaborator ("Out of scope to specify which codes exist"), so the
registries are parameters of the model.  A talker entry carries the declared
field schema of its class; for proprietary types only membership matters
here, since their construction is vendor-specific and out of scope. -/
structure Env where
  talker_sentence_types : List (String × Fields)
  proprietary_sentence_types : List String
  deriving Repr, DecidableEq

/-- Registry lookup for a talker sentence code
(`TalkerSentence.sentence_types.get(sentence)`). -/
def lookupFields (env : Env) (code : String) : Option Fields :=
  env.talker_sentence_types.lookup code

/-- Errors of `nmea.py`, by Python exception class, with the carried
payloads of the `raise` sites (`ParseError(message, data)` and subclasses;
`AttributeError` and `IndexError` arise from plain Python evaluation). -/
inductive PyError where
  | parseError (msg : String) (data : String)
  | sentenceTypeError (msg : String) (data : String)
  | checksumError (msg : String) (data : List String)
  | attributeError (msg : String)
  | indexError (msg : String)
  deriving Repr, DecidableEq

/-- The sentence object model.  `talker` carries the *effective* field
schema of the constructed instance.

Modelled from the spec for the part outside `nmea.py`: "Construct the
concrete type with talker, code, raw fields, and the (possibly overridden)
schema" — the concrete classes applying the `fields` keyword are external,
so the constructed talker instance records the effective schema directly.
For a proprietary sentence, `generic` records whether the generic
`ProprietarySentence` wrapper (the `.get` default) was used. -/
inductive Sentence where
  | talker (talker : String) (sentence : String) (data : List String)
      (fields : Fields)
  | query (talker : String) (listener : String) (sentence : String)
  | proprietary (manufacturer : String) (data : List String) (generic : Bool)
  deriving Repr, DecidableEq

/-- Python `data_str.split(',')` (always at least one field). -/
def splitComma : List Char → List (List Char)
  | [] => [[]]
  | c :: rest =>
    if c = ',' then [] :: splitComma rest
    else
      match splitComma rest with
      | [] => [[c]]
      | f :: fs => (c :: f) :: fs

/-- Python `','.join(fields)`. -/
def joinComma : List (List Char) → List Char
  | [] => []
  | [f] => f
  | f :: fs => f ++ ',' :: joinComma fs

/-- The synthetic GSV trailing field. -/
def signalIdField : String × String := ("GNSS Signal ID", "signal_id")

/-- The synthetic GRS trailing fields. -/
def grsExtraFields : Fields :=
  [("GNSS System ID", "system_id"), ("GNSS Signal ID", "signal_id")]

/-- The proprietary lookup (`proprietary_re`, with the `.get` default to the
generic `ProprietarySentence` wrapper) and the final `ParseError` (source
lines 165–172), reached when neither the talker branch nor the
empty-payload query branch returned. -/
def propStep (env : Env) (sentence_type : List Char) (data : List String)
    (line : List Char) : Except PyError Sentence :=
  match propMatch sentence_type with
  | some m => .ok (.proprietary (String.mk m) data
      (!(env.proprietary_sentence_types.contains (String.mk m))))
  | none => .error (.parseError
      ("could not parse sentence type: '" ++ String.mk sentence_type ++ "'")
      (String.mk line))

/-- Classification part of `NMEASentence.parse` (source lines 140–172):
`talker_re` / `query_re` / `proprietary_re` on the uppercased
`sentence_type`, registry lookups, the GSV/GRS schema overrides, and the
final `ParseError`.

Mirrors the source's order exactly: the GSV/GRS keyword computation precedes
the `if not cls` check, so an unregistered `GSV` (resp. `GRS`) code with the
matching flag set evaluates `cls.fields` on `None` and dies with an
`AttributeError` instead of reaching the `SentenceTypeError`. -/
def classify (env : Env) (sentence_type : List Char) (data_str : List Char)
    (data : List String) (gsv_signal_id grs_ids : Bool) (line : List Char) :
    Except PyError Sentence :=
  match talkerMatch sentence_type with
  | some (t, s) =>
    if String.mk s = "GSV" ∧ gsv_signal_id then
      match lookupFields env (String.mk s) with
      | none => .error (.attributeError
          "'NoneType' object has no attribute 'fields'")
      | some fs => .ok (.talker (String.mk t) (String.mk s) data
          (fs.take (data.length - 1) ++ [signalIdField]))
    else if String.mk s = "GRS" ∧ grs_ids then
      match lookupFields env (String.mk s) with
      | none => .error (.attributeError
          "'NoneType' object has no attribute 'fields'")
      | some fs => .ok (.talker (String.mk t) (String.mk s) data
          (fs ++ grsExtraFields))
    else
      match lookupFields env (String.mk s) with
      | none => .error (.sentenceTypeError
          ("Unknown sentence type " ++ String.mk sentence_type)
          (String.mk line))
      | some fs => .ok (.talker (String.mk t) (String.mk s) data fs)
  | none =>
    match queryMatch sentence_type with
    | some (t, l, s) =>
      if data_str = [] then .ok (.query (String.mk t) (String.mk l) (String.mk s))
      else propStep env sentence_type data line
    | none => propStep env sentence_type data line

/-- The checksum-mismatch message
`'checksum does not match: %02X != %02X' % (cs1, cs2)`. -/
def csMismatchMsg (cs1 cs2 : Nat) : String :=
  "checksum does not match: " ++ String.mk (fmt02X cs1) ++ " != " ++
    String.mk (fmt02X cs2)

/-- `NMEASentence.parse(line, check, GSV_signal_id, GRS_ids)` on a character
list: grammar match, field split, checksum gate, classification. -/
def parseChars (env : Env) (line : List Char)
    (check gsv_signal_id grs_ids : Bool) : Except PyError Sentence :=
  match sentenceMatch line with
  | none => .error (.parseError "could not parse data" (String.mk line))
  | some m =>
    let sentence_type := pyUpper m.sentence_type
    let data := (splitComma m.data).map String.mk
    match m.checksum with
    | some cs =>
      if hexVal cs ≠ checksum m.nmea_str ∧ check then
        .error (.checksumError
          (csMismatchMsg (hexVal cs) (checksum m.nmea_str)) data)
      else classify env sentence_type m.data data gsv_signal_id grs_ids line
    | none =>
      if check then
        .error (.checksumError
          "strict checking requested but checksum missing" data)
      else classify env sentence_type m.data data gsv_signal_id grs_ids line

/-- `NMEASentence.parse` on a Lean `String`. -/
def parse (env : Env) (line : String)
    (check gsv_signal_id grs_ids : Bool) : Except PyError Sentence :=
  parseChars env line.data check gsv_signal_id grs_ids

/-! ## The renderer -/

/-- `identifier()` of each variant (`TalkerSentence`, `QuerySentence`,
`ProprietarySentence`). -/
def identifier : Sentence → List Char
  | .talker t s _ _ => t.data ++ s.data ++ [',']
  | .query t l s => t.data ++ l.data ++ ['Q', ','] ++ s.data ++ [',']
  | .proprietary m _ _ => 'P' :: m.data

/-- The `data` attribute of each variant (`QuerySentence.data` is `[]`). -/
def dataOf : Sentence → List String
  | .talker _ _ d _ => d
  | .query _ _ _ => []
  | .proprietary _ d _ => d

/-- `NMEASentence.render(checksum, dollar, newline)`.  `newline=False` is
`none`; `newline=True` is `some "\r\n".data`; a string argument is itself
(`res += (newline is True) and '\r\n' or newline`; the empty string, being
falsy, appends nothing, like `none`). -/
def renderChars (s : Sentence) (cks dollar : Bool)
    (nl : Option (List Char)) : List Char :=
  let res := identifier s ++ joinComma ((dataOf s).map String.data)
  let res := if cks then res ++ '*' :: fmt02X (checksum res) else res
  let res := if dollar then '$' :: res else res
  match nl with
  | some t => res ++ t
  | none => res

/-- `render()` with all defaults (`checksum=True, dollar=True,
newline=False`), i.e. `str(sentence)`. -/
def renderS (s : Sentence) : String :=
  String.mk (renderChars s true true none)

/-! ## The field accessor (`NMEASentence.__setattr__`) -/

/-- An instance's mutable state: its raw `data` list and its other
structural attributes (the instance `__dict__` apart from `data`; attribute
values are modelled as strings, which is all `__setattr__` needs since the
schema branch stores `str(value)`).  The distinguished structural attribute
`data` is carried as its own field; `attrs` models every other name that
`object.__setattr__` would store. -/
structure Instance where
  data : List String
  attrs : List (String × String)
  deriving Repr, DecidableEq

/-- `name_to_idx` as built by the metaclass:
`dict((f[1], i) for i, f in enumerate(cls.fields))` — on duplicate names the
later index wins, as in a Python dict comprehension. -/
def nameToIdx (fields : Fields) (name : String) : Option Nat :=
  ((fields.enum.map fun p => (p.2.2, p.1)).reverse).lookup name

/-- `NMEASentence.__setattr__(self, name, value)`: a schema name overwrites
`self.data[i]` with `str(value)` (an out-of-range index dies with Python's
`IndexError`, as list item assignment does); any other name becomes an
ordinary structural attribute. -/
def setattr__ (fields : Fields) (s : Instance) (name value : String) :
    Except PyError Instance :=
  match nameToIdx fields name with
  | none => .ok { s with attrs := (name, value) :: s.attrs }
  | some i =>
    if i < s.data.length then .ok { s with data := s.data.set i value }
    else .error (.indexError "list assignment index out of range")

/-! ## Character-level lemmas -/

theorem char_eq_of_toNat_eq {a b : Char} (h : a.toNat = b.toNat) : a = b :=
  Char.ext (UInt32.ext h)

theorem char_toNat_ofNat {n : Nat} (h : n.isValidChar) :
    (Char.ofNat n).toNat = n := by
  unfold Char.ofNat
  rw [dif_pos h]
  simp only [Char.ofNatAux, Char.toNat, UInt32.toNat]
  simp

theorem pyUpperChar_toNat (c : Char) :
    (pyUpperChar c).toNat =
      if 97 ≤ c.toNat ∧ c.toNat ≤ 122 then c.toNat - 32 else c.toNat := by
  unfold pyUpperChar
  by_cases h : 97 ≤ c.toNat ∧ c.toNat ≤ 122
  · rw [if_pos h, if_pos h]
    exact char_toNat_ofNat (Or.inl (by omega))
  · rw [if_neg h, if_neg h]

theorem pyUpperChar_idem (c : Char) :
    pyUpperChar (pyUpperChar c) = pyUpperChar c := by
  apply char_eq_of_toNat_eq
  rw [pyUpperChar_toNat, pyUpperChar_toNat c]
  by_cases h : 97 ≤ c.toNat ∧ c.toNat ≤ 122
  · rw [if_pos h, if_neg (by omega)]
  · rw [if_neg h, if_neg h]

theorem pyUpper_idem (s : List Char) : pyUpper (pyUpper s) = pyUpper s := by
  unfold pyUpper
  rw [List.map_map]
  exact List.map_congr_left fun c _ => pyUpperChar_idem c

theorem isWordChar_pyUpperChar (c : Char) :
    isWordChar (pyUpperChar c) = isWordChar c := by
  rw [Bool.eq_iff_iff]
  unfold isWordChar
  simp only [Bool.or_eq_true, Bool.and_eq_true, decide_eq_true_eq, beq_iff_eq,
    pyUpperChar_toNat]
  split <;> omega

theorem isPySpace_pyUpperChar (c : Char) :
    isPySpace (pyUpperChar c) = isPySpace c := by
  rw [Bool.eq_iff_iff]
  unfold isPySpace
  simp only [Bool.or_eq_true, beq_iff_eq, pyUpperChar_toNat]
  split <;> omega

theorem isHexUD_pyUpperChar (c : Char) :
    isHexUD (pyUpperChar c) = isHexUD c := by
  rw [Bool.eq_iff_iff]
  unfold isHexUD
  simp only [Bool.or_eq_true, Bool.and_eq_true, decide_eq_true_eq,
    pyUpperChar_toNat]
  split <;> omega

theorem eqCI_pyUpperChar (c lit : Char) (h : 65 ≤ lit.toNat ∧ lit.toNat ≤ 90) :
    eqCI (pyUpperChar c) lit = eqCI c lit := by
  rw [Bool.eq_iff_iff]
  unfold eqCI
  simp only [Bool.or_eq_true, beq_iff_eq, pyUpperChar_toNat]
  split <;> omega

theorem pyUpperChar_eq_lit {c d : Char} (h1 : d.toNat < 65) :
    pyUpperChar c = d ↔ c = d := by
  constructor
  · intro h
    have ht := congrArg Char.toNat h
    rw [pyUpperChar_toNat] at ht
    split at ht
    · omega
    · exact char_eq_of_toNat_eq ht
  · intro h
    subst h
    unfold pyUpperChar
    rw [if_neg (by omega)]

theorem beq_pyUpperChar_lit {d : Char} (h1 : d.toNat < 65) (c : Char) :
    (pyUpperChar c == d) = (c == d) := by
  rw [Bool.eq_iff_iff, beq_iff_eq, beq_iff_eq]
  exact pyUpperChar_eq_lit h1

theorem bne_pyUpperChar_lit {d : Char} (h1 : d.toNat < 65) (c : Char) :
    (pyUpperChar c != d) = (c != d) := by
  simp only [bne]
  rw [beq_pyUpperChar_lit h1]

theorem isWordChar_toNat_lt (c : Char) (h : isWordChar c = true) :
    c.toNat < 128 := by
  unfold isWordChar at h
  simp only [Bool.or_eq_true, Bool.and_eq_true, decide_eq_true_eq,
    beq_iff_eq] at h
  omega

/-! ## Checksum lemmas -/

theorem checksum_foldr (l : List Char) (a : Nat) :
    l.foldl (fun x c => x ^^^ c.toNat) a =
      a ^^^ (l.map Char.toNat).foldr (· ^^^ ·) 0 := by
  induction l generalizing a with
  | nil => simp
  | cons c t ih =>
    simp only [List.foldl_cons, List.map_cons, List.foldr_cons]
    rw [ih (a ^^^ c.toNat), Nat.xor_assoc]

theorem checksum_lt_256 (l : List Char) (h : ∀ c ∈ l, c.toNat < 256) :
    checksum l < 256 := by
  unfold checksum
  suffices H : ∀ a, a < 256 → l.foldl (fun x c => x ^^^ c.toNat) a < 256 from
    H 0 (by omega)
  induction l with
  | nil => intro a ha; simpa using ha
  | cons c t ih =>
    intro a ha
    simp only [List.foldl_cons]
    refine ih (fun x hx => h x (List.mem_cons_of_mem c hx)) _ ?_
    have hc : c.toNat < 256 := h c (List.mem_cons_self c t)
    have : (256 : Nat) = 2 ^ 8 := by norm_num
    rw [this] at ha hc ⊢
    exact Nat.xor_lt_two_pow ha hc

/-! ## split / join lemmas -/

theorem splitComma_ne_nil (l : List Char) : splitComma l ≠ [] := by
  cases l with
  | nil => simp [splitComma]
  | cons c t =>
    simp only [splitComma]
    split
    · simp
    · split <;> simp

theorem joinComma_splitComma (l : List Char) : joinComma (splitComma l) = l := by
  induction l with
  | nil => rfl
  | cons c t ih =>
    by_cases hc : c = ','
    · subst hc
      show joinComma ([] :: splitComma t) = ',' :: t
      rcases hsp : splitComma t with _ | ⟨f, fs⟩
      · exact absurd hsp (splitComma_ne_nil t)
      · rw [hsp] at ih
        show [] ++ ',' :: joinComma (f :: fs) = ',' :: t
        rw [List.nil_append, ih]
    · simp only [splitComma, if_neg hc]
      rcases hsp : splitComma t with _ | ⟨f, fs⟩
      · exact absurd hsp (splitComma_ne_nil t)
      · rw [hsp] at ih
        cases fs with
        | nil => show c :: f = c :: t; rw [show joinComma [f] = f from rfl] at ih; rw [ih]
        | cons f2 fs2 =>
          show (c :: f) ++ ',' :: joinComma (f2 :: fs2) = c :: t
          rw [show joinComma (f :: f2 :: fs2) = f ++ ',' :: joinComma (f2 :: fs2) from rfl] at ih
          rw [List.cons_append, ih]

/-! ## Hex-formatting lemmas -/

theorem hexDigit_isHexUD {k : Nat} (h : k < 16) : isHexUD (hexDigit k) = true := by
  interval_cases k <;> decide

theorem hexDigitsAux_zero (f : Nat) : hexDigitsAux f 0 = [] := by
  cases f <;> rfl

theorem hexDigitsAux_small {f n : Nat} (h1 : 0 < n) (h2 : n < 16) (hf : 0 < f) :
    hexDigitsAux f n = [hexDigit n] := by
  rcases n with _ | k
  · omega
  rcases f with _ | f
  · omega
  show hexDigitsAux f ((k + 1) / 16) ++ [hexDigit ((k + 1) % 16)] = _
  rw [Nat.div_eq_of_lt h2, hexDigitsAux_zero, Nat.mod_eq_of_lt h2]
  rfl

theorem hexDigits_of_lt_16 {n : Nat} (h1 : 0 < n) (h2 : n < 16) :
    hexDigits n = [hexDigit n] :=
  hexDigitsAux_small h1 h2 h1

theorem fmt02X_of_lt_256 {n : Nat} (h : n < 256) :
    fmt02X n = [hexDigit (n / 16), hexDigit (n % 16)] := by
  rcases Nat.eq_zero_or_pos n with h0 | h0
  · subst h0; rfl
  rcases Nat.lt_or_ge n 16 with h16 | h16
  · unfold fmt02X
    rw [hexDigits_of_lt_16 h0 h16, Nat.div_eq_of_lt h16, Nat.mod_eq_of_lt h16]
    rfl
  · have hd : hexDigits n = [hexDigit (n / 16), hexDigit (n % 16)] := by
      rcases n with _ | k
      · omega
      show hexDigitsAux k ((k + 1) / 16) ++ [hexDigit ((k + 1) % 16)] = _
      rw [hexDigitsAux_small (by omega) (by omega) (by omega)]
      rfl
    unfold fmt02X
    rw [hd]
    rfl

/-! ## Grammar shape lemmas -/

theorem sentenceMatch_exists_mAD {line : List Char} {m : MatchResult}
    (h : sentenceMatch line = some m) :
    ∃ cs, matchAfterDollar cs = some m := by
  simp only [sentenceMatch] at h
  split at h
  · exact ⟨_, h⟩
  · exact ⟨_, h⟩

theorem matchAfterDollar_some {cs : List Char} {m : MatchResult}
    (h : matchAfterDollar cs = some m) :
    ∃ st rest, matchType cs = some (st, rest) ∧
      m.sentence_type = st ∧ m.data = rest.takeWhile (· != '*') ∧
      m.nmea_str = st ++ m.data ∧
      ((m.checksum = none ∧ rest.dropWhile (· != '*') = []) ∨
       (∃ h1 h2 rest2, rest.dropWhile (· != '*') = '*' :: h1 :: h2 :: rest2 ∧
          m.checksum = some [h1, h2] ∧ isHexUD h1 = true ∧ isHexUD h2 = true ∧
          rest2.all isPySpace = true)) := by
  rcases hmt : matchType cs with _ | ⟨st, rest⟩
  · simp only [matchAfterDollar, hmt] at h
    exact absurd h (by simp)
  · simp only [matchAfterDollar, hmt] at h
    refine ⟨st, rest, rfl, ?_⟩
    split at h
    · next hdw =>
      injection h with h
      subst h
      exact ⟨rfl, rfl, rfl, Or.inl ⟨rfl, hdw⟩⟩
    · next h1 h2 rest2 hdw =>
      split at h
      · next hcond =>
        injection h with h
        subst h
        simp only [Bool.and_eq_true] at hcond
        exact ⟨rfl, rfl, rfl, Or.inr ⟨h1, h2, rest2, hdw, rfl,
          hcond.1.1, hcond.1.2, hcond.2⟩⟩
      · exact absurd h (by simp)
    · exact absurd h (by simp)

/-! ## Claim theorems -/

/-- **C2.** The checksum function is the exclusive-OR reduction of the
character codes of its input, and on the documented example string its
value is `0x6D`. -/
theorem C2_checksum_is_xor_reduction :
    (∀ s : List Char, checksum s = (s.map Char.toNat).foldr (· ^^^ ·) 0) ∧
    checksum ("GPGGA,184353.07,1929.045,S,02410.506,E,1,04,2.6,100.00,M,-33.9,M,,0000" : String).data = 0x6D := by
  constructor
  · intro s
    unfold checksum
    rw [checksum_foldr]
    exact Nat.zero_xor _
  · rfl

/-- **C4 (code bug).** A talker-shape line whose 3-character code is absent
from the talker registry is claimed to always raise `SentenceTypeError` for
all flag values; but with `GSV_signal_id=True` and an unregistered `GSV`
code, `parse` evaluates `cls.fields` on `None` (source line 148 runs before
the `if not cls` check on line 152) and dies with an `AttributeError`,
contradicting the docstring's `Raises` list.  With the flag off the same
line raises `SentenceTypeError` as documented. -/
theorem C4_unregistered_gsv_attribute_error :
    parse ⟨[], []⟩ "$AAGSV,1,2" false true false =
      .error (.attributeError "'NoneType' object has no attribute 'fields'") ∧
    parse ⟨[], []⟩ "$AAGRS,1,2" false false true =
      .error (.attributeError "'NoneType' object has no attribute 'fields'") ∧
    parse ⟨[], []⟩ "$AAGSV,1,2" false false false =
      .error (.sentenceTypeError "Unknown sentence type AAGSV," "$AAGSV,1,2") :=
  ⟨rfl, rfl, rfl⟩

/-- **C5 (counterexample).** `parse("$CCGPQ,GGA")` does yield the query
sentence with talker `"CC"`, listener `"GP"`, code `"GGA"`, but its text
conversion is `"$CCGPQ,GGA,*07"`: `QuerySentence.identifier()` ends with a
comma (`'%s%sQ,%s,'`), so the rendered string is not of the claimed form
`"$CCGPQ,GGA*HH"` — its first 11 characters are `"$CCGPQ,GGA,"`, while any
string of the claimed form starts with the 11 characters `"$CCGPQ,GGA*"`. -/
theorem C5_counterexample :
    parse ⟨[], []⟩ "$CCGPQ,GGA" false false false =
      .ok (.query "CC" "GP" "GGA") ∧
    renderS (.query "CC" "GP" "GGA") = "$CCGPQ,GGA,*07" ∧
    ("$CCGPQ,GGA,*07" : String).data.take 11 ≠ ("$CCGPQ,GGA*" : String).data :=
  ⟨rfl, rfl, by decide⟩

/-- **C5 (amended).** `parse("$CCGPQ,GGA")` yields a `QuerySentence` with
talker `"CC"`, listener `"GP"`, sentence code `"GGA"`, and `str()` of that
result equals `"$CCGPQ,GGA,*"` (note the trailing comma of the query
identifier) followed by the two-digit hex checksum of `"CCGPQ,GGA,"`. -/
theorem C5_query_parse_and_render :
    parse ⟨[], []⟩ "$CCGPQ,GGA" false false false =
      .ok (.query "CC" "GP" "GGA") ∧
    renderS (.query "CC" "GP" "GGA") =
      "$CCGPQ,GGA,*" ++ String.mk (fmt02X (checksum ("CCGPQ,GGA," : String).data)) :=
  ⟨rfl, rfl⟩

/-- **C8 (counterexample).** The claim says a checksum suffix written with
lowercase hex letters does not match the grammar; but `sentence_re` is
compiled with `re.IGNORECASE`, so `"$GPGGA,1*6d"` matches, with checksum
group `"6d"`. -/
theorem C8_counterexample :
    sentenceMatch ("$GPGGA,1*6d" : String).data =
      some ⟨("GPGGA,1" : String).data, ("GPGGA," : String).data,
        ("1" : String).data, some ['6', 'd']⟩ :=
  rfl

/-- **C9 (counterexample).** Setting a schema-mapped field by name is
claimed to always replace one raw data slot; but when the mapped index is
outside the data sequence (here: name `"b"` maps to index 1 while `data`
has a single element) the assignment `self.data[i] = str(value)` dies with
Python's `IndexError` instead. -/
theorem C9_counterexample :
    nameToIdx [("A", "a"), ("B", "b")] "b" = some 1 ∧
    setattr__ [("A", "a"), ("B", "b")] ⟨["x"], []⟩ "b" "v" =
      .error (.indexError "list assignment index out of range") :=
  ⟨rfl, rfl⟩

/-- **C9 (amended).** For every name present in the schema's name-to-index
map whose mapped index is within the bounds of the data sequence, setting
that field replaces exactly the slot at the mapped index with the value,
leaves every other position unchanged, leaves the length unchanged, and
leaves the structural attributes unchanged; setting a name absent from the
map adds an ordinary structural attribute and leaves the data sequence
unchanged. -/
theorem C9_setattr_frame :
    ∀ (fields : Fields) (s : Instance) (name value : String),
      (∀ i, nameToIdx fields name = some i → i < s.data.length →
        setattr__ fields s name value = .ok ⟨s.data.set i value, s.attrs⟩ ∧
        (s.data.set i value).length = s.data.length ∧
        (s.data.set i value)[i]? = some value ∧
        ∀ j, j ≠ i → (s.data.set i value)[j]? = s.data[j]?) ∧
      (nameToIdx fields name = none →
        setattr__ fields s name value = .ok ⟨s.data, (name, value) :: s.attrs⟩) := by
  intro fields s name value
  constructor
  · intro i hi hlt
    refine ⟨?_, List.length_set .., List.getElem?_set_self hlt,
      fun j hj => List.getElem?_set_ne (Ne.symm hj)⟩
    simp only [setattr__, hi]
    rw [if_pos hlt]
  · intro hne
    simp only [setattr__, hne]

/-- **C8 (amended).** The grammar accepts a checksum suffix only in the form
`'*'` followed by exactly two hex characters, where — because `sentence_re`
is compiled with `re.IGNORECASE` — the hex character class is
`[A-Fa-f0-9]` (uppercase, lowercase, or digit); any other character there
fails the match. -/
theorem C8_checksum_suffix_shape :
    ∀ (line : List Char) (m : MatchResult) (cs : List Char),
      sentenceMatch line = some m → m.checksum = some cs →
      cs.length = 2 ∧ cs.all isHexUD = true := by
  intro line m cs hm hcs
  obtain ⟨cs2, hcs2⟩ := sentenceMatch_exists_mAD hm
  obtain ⟨st, rest, hmt, hst, hdata, hnmea, hck⟩ := matchAfterDollar_some hcs2
  rcases hck with ⟨hnone, _⟩ | ⟨h1, h2, rest2, _, hsome, hh1, hh2, _⟩
  · rw [hnone] at hcs
    exact absurd hcs (by simp)
  · rw [hsome] at hcs
    injection hcs with hcs
    subst hcs
    exact ⟨rfl, by simp [hh1, hh2]⟩

/-- Witness for `C8_checksum_suffix_shape` on `"$GPGGA,1*6d"`. -/
theorem C8_checksum_suffix_shape_witness :
    (['6', 'd'] : List Char).length = 2 ∧ ['6', 'd'].all isHexUD = true :=
  C8_checksum_suffix_shape ("$GPGGA,1*6d" : String).data
    ⟨("GPGGA,1" : String).data, ("GPGGA," : String).data,
      ("1" : String).data, some ['6', 'd']⟩
    ['6', 'd'] rfl rfl

/-- **C1 (counterexample).** The round-trip claim fails for a line with a
non-ASCII data character: `"$GPGGA,Ā"` (with `ord('Ā') = 256`) parses as a
talker sentence, but its render computes a checksum above `0xFF`, so
`'%02X'` emits three hex digits and the rendered string `"$GPGGA,Ā*17A"` no
longer matches the grammar (after `*HH` only whitespace may follow):
re-parsing raises `ParseError`. -/
theorem C1_counterexample :
    parse ⟨[("GGA", [])], []⟩ "$GPGGA,Ā" false false false =
      .ok (.talker "GP" "GGA" ["Ā"] []) ∧
    renderS (.talker "GP" "GGA" ["Ā"] []) = "$GPGGA,Ā*17A" ∧
    parse ⟨[("GGA", [])], []⟩ "$GPGGA,Ā*17A" false false false =
      .error (.parseError "could not parse data" "$GPGGA,Ā*17A") :=
  ⟨rfl, rfl, rfl⟩

/-- **C7 (counterexample).** The claim says a proprietary-shape line with an
unregistered manufacturer always yields the generic wrapper; but with
`check=True` and no checksum suffix, `parse("$PXYZ,1")` raises
`ChecksumError` (the checksum gate runs before classification), so no
wrapper is returned. -/
theorem C7_counterexample :
    parse ⟨[], []⟩ "$PXYZ,1" true false false =
      .error (.checksumError "strict checking requested but checksum missing"
        ["", "1"]) ∧
    (parse ⟨[], []⟩ "$PXYZ,1" true false false).isOk = false :=
  ⟨rfl, rfl⟩

/-- Witness for `C9_setattr_frame` at a concrete schema and instance. -/
theorem C9_setattr_frame_witness :
    setattr__ [("A", "a"), ("B", "b")] ⟨["x", "y", "z"], []⟩ "b" "v" =
      .ok ⟨(["x", "y", "z"] : List String).set 1 "v", []⟩ ∧
    ((["x", "y", "z"] : List String).set 1 "v").length = (["x", "y", "z"] : List String).length ∧
    ((["x", "y", "z"] : List String).set 1 "v")[1]? = some "v" ∧
    ∀ j, j ≠ 1 → ((["x", "y", "z"] : List String).set 1 "v")[j]? = (["x", "y", "z"] : List String)[j]? :=
  (C9_setattr_frame [("A", "a"), ("B", "b")] ⟨["x", "y", "z"], []⟩ "b" "v").1
    1 rfl (by decide)

/-! ## Dispatcher lemmas -/

theorem propStep_ne_checksumError (env : Env) (st : List Char)
    (d : List String) (line : List Char) (msg : String) (dd : List String) :
    propStep env st d line ≠ .error (.checksumError msg dd) := by
  unfold propStep
  split <;> simp

theorem classify_ne_checksumError (env : Env) (st ds : List Char)
    (d : List String) (g1 g2 : Bool) (line : List Char) (msg : String)
    (dd : List String) :
    classify env st ds d g1 g2 line ≠ .error (.checksumError msg dd) := by
  unfold classify
  split
  · split
    · split <;> simp
    · split
      · split <;> simp
      · split <;> simp
  · split
    · split
      · simp
      · exact propStep_ne_checksumError _ _ _ _ _ _
    · exact propStep_ne_checksumError _ _ _ _ _ _

/-- **C3.** Strict checksum semantics of `parse`: on a grammatically valid
line, with `check=true` a present-but-mismatched checksum suffix raises
`ChecksumError`, an absent suffix raises `ChecksumError`; with `check=false`
`parse` never raises `ChecksumError` on any line. -/
theorem C3_strict_checksum :
    ∀ (env : Env) (line : List Char) (g1 g2 : Bool),
      (∀ m : MatchResult, sentenceMatch line = some m →
        (∀ cs, m.checksum = some cs → hexVal cs ≠ checksum m.nmea_str →
          parseChars env line true g1 g2 =
            .error (.checksumError
              (csMismatchMsg (hexVal cs) (checksum m.nmea_str))
              ((splitComma m.data).map String.mk))) ∧
        (m.checksum = none →
          parseChars env line true g1 g2 =
            .error (.checksumError
              "strict checking requested but checksum missing"
              ((splitComma m.data).map String.mk)))) ∧
      (∀ msg dd, parseChars env line false g1 g2 ≠
          .error (.checksumError msg dd)) := by
  intro env line g1 g2
  constructor
  · intro m hm
    constructor
    · intro cs hcs hne
      simp only [parseChars, hm, hcs]
      rw [if_pos ⟨hne, trivial⟩]
    · intro hnone
      simp only [parseChars, hm, hnone]
      rw [if_pos trivial]
  · intro msg dd h
    simp only [parseChars] at h
    split at h
    · exact absurd h (by simp)
    · split at h
      · rw [if_neg (by simp)] at h
        exact classify_ne_checksumError _ _ _ _ _ _ _ _ _ h
      · rw [if_neg (by simp)] at h
        exact classify_ne_checksumError _ _ _ _ _ _ _ _ _ h

/-- Witness for `C3_strict_checksum`: `"$GPGGA,1*00"` carries checksum `00`
while the computed checksum of `"GPGGA,1"` is `0x5B`. -/
theorem C3_strict_checksum_witness :
    parseChars (⟨[], []⟩ : Env) ("$GPGGA,1*00" : String).data true false false =
      .error (.checksumError
        (csMismatchMsg (hexVal ['0', '0'])
          (checksum ("GPGGA,1" : String).data))
        ((splitComma ("1" : String).data).map String.mk)) :=
  ((C3_strict_checksum ⟨[], []⟩ ("$GPGGA,1*00" : String).data false false).1
    ⟨("GPGGA,1" : String).data, ("GPGGA," : String).data,
      ("1" : String).data, some ['0', '0']⟩ rfl).1
    ['0', '0'] rfl (by decide)

theorem classify_talker_fields {env : Env} {st ds : List Char}
    {d : List String} {g1 g2 : Bool} {line : List Char} {t c : String}
    {dd : List String} {f : Fields}
    (h : classify env st ds d g1 g2 line = .ok (.talker t c dd f)) :
    dd = d ∧ ∃ decl, lookupFields env c = some decl ∧
      f = if c = "GSV" ∧ g1 then decl.take (d.length - 1) ++ [signalIdField]
          else if c = "GRS" ∧ g2 then decl ++ grsExtraFields
          else decl := by
  unfold classify at h
  split at h
  · next t0 s0 heqt =>
    split at h
    · next hgsv =>
      split at h
      · exact absurd h (by simp)
      · next fs hcls =>
        injection h with h
        injection h with h1 h2 h3 h4
        subst h1; subst h2; subst h3; subst h4
        exact ⟨rfl, fs, hcls, by rw [if_pos hgsv]⟩
    · next hngsv =>
      split at h
      · next hgrs =>
        split at h
        · exact absurd h (by simp)
        · next fs hcls =>
          injection h with h
          injection h with h1 h2 h3 h4
          subst h1; subst h2; subst h3; subst h4
          exact ⟨rfl, fs, hcls, by rw [if_neg hngsv, if_pos hgrs]⟩
      · next hngrs =>
        split at h
        · exact absurd h (by simp)
        · next fs hcls =>
          injection h with h
          injection h with h1 h2 h3 h4
          subst h1; subst h2; subst h3; subst h4
          exact ⟨rfl, fs, hcls, by rw [if_neg hngsv, if_neg hngrs]⟩
  · split at h
    · split at h
      · exact absurd h (by simp)
      · unfold propStep at h
        split at h <;> simp_all
    · unfold propStep at h
      split at h <;> simp_all

/-- **C6.** GSV/GRS schema override: when `parse` yields a talker sentence,
the effective schema of the constructed object is the declared (registered)
schema — truncated to `len(data)-1` entries plus the synthetic trailing
`"signal_id"` field when the code is `"GSV"` and `GSV_signal_id` is set;
the full declared schema plus the synthetic trailing `"system_id"` and
`"signal_id"` fields (no truncation) when the code is `"GRS"` and `GRS_ids`
is set; and the declared schema unchanged otherwise. -/
theorem C6_gsv_grs_schema_override :
    ∀ (env : Env) (line : List Char) (check g1 g2 : Bool)
      (t c : String) (d : List String) (f : Fields),
      parseChars env line check g1 g2 = .ok (.talker t c d f) →
      ∃ decl, lookupFields env c = some decl ∧
        f = if c = "GSV" ∧ g1 then decl.take (d.length - 1) ++ [signalIdField]
            else if c = "GRS" ∧ g2 then decl ++ grsExtraFields
            else decl := by
  intro env line check g1 g2 t c d f h
  simp only [parseChars] at h
  split at h
  · exact absurd h (by simp)
  · split at h
    · split at h
      · exact absurd h (by simp)
      · obtain ⟨hd, hx⟩ := classify_talker_fields h
        rw [hd]
        exact hx
    · split at h
      · exact absurd h (by simp)
      · obtain ⟨hd, hx⟩ := classify_talker_fields h
        rw [hd]
        exact hx

/-- Witness for `C6_gsv_grs_schema_override`: a `GSV` line with five data
fields against a declared four-field schema and `GSV_signal_id=true`. -/
theorem C6_gsv_grs_schema_override_witness :
    ∃ decl,
      lookupFields ⟨[("GSV", [("A", "a"), ("B", "b"), ("C", "c"), ("D", "d")])], []⟩
        "GSV" = some decl ∧
      ([("A", "a"), ("B", "b"), ("C", "c"), signalIdField] : Fields) =
        if ("GSV" : String) = "GSV" ∧ true then
          decl.take ((["1", "1", "01", "99"] : List String).length - 1) ++ [signalIdField]
        else if ("GSV" : String) = "GRS" ∧ false then decl ++ grsExtraFields
        else decl :=
  C6_gsv_grs_schema_override
    ⟨[("GSV", [("A", "a"), ("B", "b"), ("C", "c"), ("D", "d")])], []⟩
    ("$GPGSV,1,1,01,99" : String).data false true false
    "GP" "GSV" ["1", "1", "01", "99"]
    [("A", "a"), ("B", "b"), ("C", "c"), signalIdField] rfl

/-! ## Length facts about the classification regexes -/

theorem talkerMatch_eq_none_of_length {l : List Char} (h : l.length ≠ 6) :
    talkerMatch l = none := by
  rcases l with _ | ⟨a, _ | ⟨b, _ | ⟨c, _ | ⟨d, _ | ⟨e, _ | ⟨f, _ | ⟨g, r⟩⟩⟩⟩⟩⟩⟩ <;>
    first
      | rfl
      | exact absurd rfl h

theorem queryMatch_eq_none_of_length {l : List Char} (h : l.length ≠ 9) :
    queryMatch l = none := by
  rcases l with _ | ⟨a, _ | ⟨b, _ | ⟨c, _ | ⟨d, _ | ⟨e, _ | ⟨f, _ | ⟨g, _ |
    ⟨a2, _ | ⟨b2, _ | ⟨c2, r⟩⟩⟩⟩⟩⟩⟩⟩⟩⟩ <;>
    first
      | rfl
      | exact absurd rfl h

theorem propMatch_eq_none_of_length {l : List Char} (h : l.length ≠ 4) :
    propMatch l = none := by
  rcases l with _ | ⟨a, _ | ⟨b, _ | ⟨c, _ | ⟨d, _ | ⟨e, r⟩⟩⟩⟩⟩ <;>
    first
      | rfl
      | exact absurd rfl h

theorem propMatch_length {l m : List Char} (h : propMatch l = some m) :
    l.length = 4 := by
  by_contra hne
  rw [propMatch_eq_none_of_length hne] at h
  exact absurd h (by simp)

theorem queryMatch_length {l : List Char} {q : List Char × List Char × List Char}
    (h : queryMatch l = some q) : l.length = 9 := by
  by_contra hne
  rw [queryMatch_eq_none_of_length hne] at h
  exact absurd h (by simp)

/-- With `check=false` the checksum gate never fires, so `parse` is the
grammar match followed by classification. -/
theorem parseChars_false_eq_classify {env : Env} {line : List Char}
    {m : MatchResult} (hm : sentenceMatch line = some m) (g1 g2 : Bool) :
    parseChars env line false g1 g2 =
      classify env (pyUpper m.sentence_type) m.data
        ((splitComma m.data).map String.mk) g1 g2 line := by
  simp only [parseChars, hm]
  split
  · rw [if_neg (by simp)]
  · rw [if_neg (by simp)]

theorem propStep_ne_ste (env : Env) (st : List Char) (d : List String)
    (line : List Char) (msg dat : String) :
    propStep env st d line ≠ .error (.sentenceTypeError msg dat) := by
  unfold propStep
  split <;> simp

theorem classify_no_ste_of_talker_none {env : Env} {st ds : List Char}
    {d : List String} {g1 g2 : Bool} {line : List Char} {msg dat : String}
    (ht : talkerMatch st = none) :
    classify env st ds d g1 g2 line ≠ .error (.sentenceTypeError msg dat) := by
  simp only [classify, ht]
  split
  · split
    · simp
    · exact propStep_ne_ste _ _ _ _ _ _
  · exact propStep_ne_ste _ _ _ _ _ _

/-- **C7 (amended).** Neither the proprietary nor the query category ever
raises `SentenceTypeError` (for every value of `check`); and with
`check=false` — so that the checksum gate, which runs first, cannot
intervene — a proprietary-shape line with unregistered manufacturer yields
the generic `ProprietarySentence` wrapper, and a query-shape line with
non-empty data payload raises the base `ParseError`. -/
theorem C7_prop_query_no_ste :
    ∀ (env : Env) (line : List Char) (g1 g2 : Bool) (m : MatchResult),
      sentenceMatch line = some m →
      ((∀ mfr, propMatch (pyUpper m.sentence_type) = some mfr →
          env.proprietary_sentence_types.contains (String.mk mfr) = false →
          parseChars env line false g1 g2 =
            .ok (.proprietary (String.mk mfr)
              ((splitComma m.data).map String.mk) true)) ∧
       (∀ q, queryMatch (pyUpper m.sentence_type) = some q → m.data ≠ [] →
          parseChars env line false g1 g2 =
            .error (.parseError
              ("could not parse sentence type: '" ++
                String.mk (pyUpper m.sentence_type) ++ "'")
              (String.mk line))) ∧
       (∀ (check : Bool) (msg : String) (dat : String),
          (propMatch (pyUpper m.sentence_type)).isSome = true ∨
            (queryMatch (pyUpper m.sentence_type)).isSome = true →
          parseChars env line check g1 g2 ≠
            .error (.sentenceTypeError msg dat))) := by
  intro env line g1 g2 m hm
  refine ⟨?_, ?_, ?_⟩
  · intro mfr hprop hreg
    have ht : talkerMatch (pyUpper m.sentence_type) = none :=
      talkerMatch_eq_none_of_length (by rw [propMatch_length hprop]; omega)
    have hq : queryMatch (pyUpper m.sentence_type) = none :=
      queryMatch_eq_none_of_length (by rw [propMatch_length hprop]; omega)
    rw [parseChars_false_eq_classify hm]
    simp only [classify, ht, hq, propStep, hprop, hreg, Bool.not_false]
  · intro q hq2 hne
    have ht : talkerMatch (pyUpper m.sentence_type) = none :=
      talkerMatch_eq_none_of_length (by rw [queryMatch_length hq2]; omega)
    have hp : propMatch (pyUpper m.sentence_type) = none :=
      propMatch_eq_none_of_length (by rw [queryMatch_length hq2]; omega)
    rw [parseChars_false_eq_classify hm]
    obtain ⟨qt, ql, qs⟩ := q
    simp only [classify, ht, hq2, if_neg hne, propStep, hp]
  · intro check msg dat hshape h
    have ht : talkerMatch (pyUpper m.sentence_type) = none := by
      rcases hshape with hp | hq
      · obtain ⟨mfr, hmfr⟩ := Option.isSome_iff_exists.mp hp
        exact talkerMatch_eq_none_of_length (by rw [propMatch_length hmfr]; omega)
      · obtain ⟨q, hq2⟩ := Option.isSome_iff_exists.mp hq
        exact talkerMatch_eq_none_of_length (by rw [queryMatch_length hq2]; omega)
    simp only [parseChars, hm] at h
    split at h
    · split at h
      · exact absurd h (by simp)
      · exact classify_no_ste_of_talker_none ht h
    · split at h
      · exact absurd h (by simp)
      · exact classify_no_ste_of_talker_none ht h

/-- Witness for `C7_prop_query_no_ste` on `"$PXYZ,1"` with an empty
proprietary registry. -/
theorem C7_prop_query_no_ste_witness :
    parseChars (⟨[], []⟩ : Env) ("$PXYZ,1" : String).data false false false =
      .ok (.proprietary (String.mk ("XYZ" : String).data)
        ((splitComma (",1" : String).data).map String.mk) true) :=
  (C7_prop_query_no_ste ⟨[], []⟩ ("$PXYZ,1" : String).data false false
    ⟨("PXYZ,1" : String).data, ("PXYZ" : String).data, (",1" : String).data, none⟩
    rfl).1 ("XYZ" : String).data rfl rfl

/-! ## Case-insensitivity: the grammar commutes with uppercasing -/

/-- Python `str.upper` on a Lean `String` (ASCII fragment). -/
def pyUpperStr (s : String) : String := String.mk (pyUpper s.data)

/-- The four regex groups, uppercased. -/
def upperMR (m : MatchResult) : MatchResult :=
  ⟨pyUpper m.nmea_str, pyUpper m.sentence_type, pyUpper m.data,
    m.checksum.map pyUpper⟩

theorem isPySpace_comp_upper : isPySpace ∘ pyUpperChar = isPySpace :=
  funext fun c => isPySpace_pyUpperChar c

theorem bne_star_comp_upper :
    ((fun x => x != '*') ∘ pyUpperChar) = fun x : Char => x != '*' :=
  funext fun c => bne_pyUpperChar_lit (by decide) c

theorem dropWhile_isPySpace_upper (l : List Char) :
    (pyUpper l).dropWhile isPySpace = pyUpper (l.dropWhile isPySpace) := by
  unfold pyUpper
  rw [List.dropWhile_map, isPySpace_comp_upper]

theorem takeWhile_ne_star_upper (l : List Char) :
    (pyUpper l).takeWhile (· != '*') = pyUpper (l.takeWhile (· != '*')) := by
  unfold pyUpper
  rw [List.takeWhile_map, bne_star_comp_upper]

theorem dropWhile_ne_star_upper (l : List Char) :
    (pyUpper l).dropWhile (· != '*') = pyUpper (l.dropWhile (· != '*')) := by
  unfold pyUpper
  rw [List.dropWhile_map, bne_star_comp_upper]

theorem all_isPySpace_upper (l : List Char) :
    (pyUpper l).all isPySpace = l.all isPySpace := by
  unfold pyUpper
  rw [List.all_map, isPySpace_comp_upper]

theorem tryProprietary_upper (l : List Char) :
    tryProprietary (pyUpper l) =
      (tryProprietary l).map fun p => (pyUpper p.1, pyUpper p.2) := by
  rcases l with _ | ⟨c0, _ | ⟨c1, _ | ⟨c2, _ | ⟨c3, r⟩⟩⟩⟩
  · rfl
  · rfl
  · rfl
  · rfl
  · simp only [pyUpper, List.map_cons, tryProprietary]
    rw [eqCI_pyUpperChar c0 'P' (by decide), isWordChar_pyUpperChar c1,
      isWordChar_pyUpperChar c2, isWordChar_pyUpperChar c3]
    split <;> rfl

theorem tryQuery_upper (l : List Char) :
    tryQuery (pyUpper l) =
      (tryQuery l).map fun p => (pyUpper p.1, pyUpper p.2) := by
  rcases l with _ | ⟨c0, _ | ⟨c1, _ | ⟨c2, _ | ⟨c3, _ | ⟨c4, _ | ⟨c5, _ |
    ⟨c6, _ | ⟨c7, _ | ⟨c8, r⟩⟩⟩⟩⟩⟩⟩⟩⟩
  · rfl
  · rfl
  · rfl
  · rfl
  · rfl
  · rfl
  · rfl
  · rfl
  · rfl
  · simp only [pyUpper, List.map_cons, tryQuery]
    rw [isWordChar_pyUpperChar c0, isWordChar_pyUpperChar c1,
      isWordChar_pyUpperChar c2, isWordChar_pyUpperChar c3,
      eqCI_pyUpperChar c4 'Q' (by decide), beq_pyUpperChar_lit (by decide) c5,
      isWordChar_pyUpperChar c6, isWordChar_pyUpperChar c7,
      isWordChar_pyUpperChar c8]
    split <;> rfl

theorem tryTalker_upper (l : List Char) :
    tryTalker (pyUpper l) =
      (tryTalker l).map fun p => (pyUpper p.1, pyUpper p.2) := by
  rcases l with _ | ⟨c0, _ | ⟨c1, _ | ⟨c2, _ | ⟨c3, _ | ⟨c4, _ | ⟨c5, r⟩⟩⟩⟩⟩⟩
  · rfl
  · rfl
  · rfl
  · rfl
  · rfl
  · rfl
  · simp only [pyUpper, List.map_cons, tryTalker]
    rw [isWordChar_pyUpperChar c0, isWordChar_pyUpperChar c1,
      isWordChar_pyUpperChar c2, isWordChar_pyUpperChar c3,
      isWordChar_pyUpperChar c4, beq_pyUpperChar_lit (by decide) c5]
    split <;> rfl

theorem matchType_upper (l : List Char) :
    matchType (pyUpper l) =
      (matchType l).map fun p => (pyUpper p.1, pyUpper p.2) := by
  unfold matchType
  rw [tryProprietary_upper, tryQuery_upper, tryTalker_upper]
  cases tryProprietary l with
  | some p => rfl
  | none =>
    cases tryQuery l with
    | some q => rfl
    | none => cases tryTalker l with
      | some t => rfl
      | none => rfl

theorem dropWhile_ne_star_head {l t : List Char} {c : Char}
    (h : l.dropWhile (· != '*') = c :: t) : c = '*' := by
  induction l with
  | nil => simp at h
  | cons a r ih =>
    rw [List.dropWhile_cons] at h
    split at h
    · exact ih h
    · next ha =>
      injection h with h1 _
      simp at ha
      rw [← h1]
      exact ha

theorem matchAfterDollar_upper (cs : List Char) :
    matchAfterDollar (pyUpper cs) =
      (matchAfterDollar cs).map upperMR := by
  rcases hmt : matchType cs with _ | ⟨st, rest⟩
  · simp only [matchAfterDollar, matchType_upper, hmt]
    rfl
  · simp only [matchAfterDollar, matchType_upper, hmt, Option.map_some']
    rw [dropWhile_ne_star_upper, takeWhile_ne_star_upper]
    rcases hdw : rest.dropWhile (· != '*') with _ | ⟨c, _ | ⟨d1, _ | ⟨d2, r2⟩⟩⟩
    · simp [upperMR, pyUpper, List.map_append]
    · have hc := dropWhile_ne_star_head hdw
      subst hc
      rfl
    · have hc := dropWhile_ne_star_head hdw
      subst hc
      rfl
    · have hc := dropWhile_ne_star_head hdw
      subst hc
      simp only [pyUpper, List.map_cons]
      rw [show pyUpperChar '*' = '*' from rfl]
      split
      · next heq => exact absurd heq (by simp)
      · next h1 h2 rest2 heq =>
        injection heq with _ heq
        injection heq with e1 heq
        injection heq with e2 e3
        subst e1
        subst e2
        subst e3
        rw [isHexUD_pyUpperChar d1, isHexUD_pyUpperChar d2]
        rw [show (List.map pyUpperChar r2).all isPySpace = r2.all isPySpace from
          all_isPySpace_upper r2]
        by_cases hcond : (isHexUD d1 && isHexUD d2 && r2.all isPySpace) = true
        · rw [if_pos hcond, if_pos hcond]
          simp [upperMR, pyUpper, List.map_append]
        · rw [if_neg hcond, if_neg hcond]
          rfl
      · next hne1 hne2 =>
        exact (hne2 (pyUpperChar d1) (pyUpperChar d2)
          (List.map pyUpperChar r2) rfl).elim

theorem sentenceMatch_upper (line : List Char) :
    sentenceMatch (pyUpper line) = (sentenceMatch line).map upperMR := by
  simp only [sentenceMatch]
  rw [dropWhile_isPySpace_upper]
  cases hdw : line.dropWhile isPySpace with
  | nil => exact matchAfterDollar_upper []
  | cons c r =>
    by_cases hc : c = '$'
    · subst hc
      show matchAfterDollar (pyUpper r) = (matchAfterDollar r).map upperMR
      exact matchAfterDollar_upper r
    · simp only [pyUpper, List.map_cons]
      split
      · next heq =>
        exfalso
        injection heq with h1 _
        exact hc ((pyUpperChar_eq_lit (by decide)).mp h1)
      · split
        · next heq2 =>
          exfalso
          injection heq2 with h1 _
          exact hc h1
        · exact matchAfterDollar_upper (c :: r)

theorem splitComma_upper (l : List Char) :
    splitComma (pyUpper l) = (splitComma l).map pyUpper := by
  induction l with
  | nil => rfl
  | cons c t ih =>
    simp only [pyUpper, List.map_cons, splitComma]
    by_cases hc : c = ','
    · subst hc
      rw [if_pos (show pyUpperChar ',' = ',' from rfl), if_pos rfl]
      simp only [List.map_cons]
      rw [show List.map pyUpperChar t = pyUpper t from rfl, ih]
      rfl
    · rw [if_neg (fun h => hc ((pyUpperChar_eq_lit (by decide)).mp h)),
        if_neg hc]
      rw [show List.map pyUpperChar t = pyUpper t from rfl, ih]
      rcases hsp : splitComma t with _ | ⟨f, fs⟩
      · exact absurd hsp (splitComma_ne_nil t)
      · simp [pyUpper]

theorem map_mk_split_upper (ds : List Char) :
    (splitComma (pyUpper ds)).map String.mk =
      ((splitComma ds).map String.mk).map pyUpperStr := by
  rw [splitComma_upper, List.map_map, List.map_map]
  rfl

theorem length_split_upper (ds : List Char) :
    ((splitComma (pyUpper ds)).map String.mk).length =
      ((splitComma ds).map String.mk).length := by
  rw [splitComma_upper]
  simp

theorem classify_upper_talker {env : Env} {st ds : List Char} {g1 g2 : Bool}
    {line line2 : List Char} {t c : String} {d : List String} {f : Fields}
    (h : classify env st ds ((splitComma ds).map String.mk) g1 g2 line =
      .ok (.talker t c d f)) :
    classify env st (pyUpper ds) ((splitComma (pyUpper ds)).map String.mk)
      g1 g2 line2 = .ok (.talker t c (d.map pyUpperStr) f) := by
  rcases ht : talkerMatch st with _ | ⟨t0, s0⟩
  · exfalso
    simp only [classify, ht] at h
    split at h
    · split at h
      · exact absurd h (by simp)
      · unfold propStep at h
        split at h <;> simp_all
    · unfold propStep at h
      split at h <;> simp_all
  · simp only [classify, ht] at h ⊢
    by_cases hgsv : String.mk s0 = "GSV" ∧ g1 = true
    · rw [if_pos hgsv] at h ⊢
      cases hcls : lookupFields env (String.mk s0) with
      | none =>
        simp only [hcls] at h
        exact absurd h (by simp)
      | some fs =>
        simp only [hcls] at h ⊢
        simp only [Except.ok.injEq, Sentence.talker.injEq] at h
        obtain ⟨h1, h2, h3, h4⟩ := h
        subst h1
        subst h2
        subst h4
        rw [← h3, map_mk_split_upper]
        simp [List.length_map]
    · rw [if_neg hgsv] at h ⊢
      by_cases hgrs : String.mk s0 = "GRS" ∧ g2 = true
      · rw [if_pos hgrs] at h ⊢
        cases hcls : lookupFields env (String.mk s0) with
        | none =>
          simp only [hcls] at h
          exact absurd h (by simp)
        | some fs =>
          simp only [hcls] at h ⊢
          simp only [Except.ok.injEq, Sentence.talker.injEq] at h
          obtain ⟨h1, h2, h3, h4⟩ := h
          subst h1
          subst h2
          subst h4
          rw [← h3, map_mk_split_upper]
      · rw [if_neg hgrs] at h ⊢
        cases hcls : lookupFields env (String.mk s0) with
        | none =>
          simp only [hcls] at h
          exact absurd h (by simp)
        | some fs =>
          simp only [hcls] at h ⊢
          simp only [Except.ok.injEq, Sentence.talker.injEq] at h
          obtain ⟨h1, h2, h3, h4⟩ := h
          subst h1
          subst h2
          subst h4
          rw [← h3, map_mk_split_upper]

theorem classify_upper_ste {env : Env} {st ds ds2 : List Char}
    {d d2 : List String} {g1 g2 : Bool} {line line2 : List Char}
    {msg dat : String}
    (h : classify env st ds d g1 g2 line =
      .error (.sentenceTypeError msg dat)) :
    classify env st ds2 d2 g1 g2 line2 =
      .error (.sentenceTypeError msg (String.mk line2)) := by
  rcases ht : talkerMatch st with _ | ⟨t0, s0⟩
  · exact absurd h (classify_no_ste_of_talker_none ht)
  · simp only [classify, ht] at h ⊢
    by_cases hgsv : String.mk s0 = "GSV" ∧ g1 = true
    · rw [if_pos hgsv] at h
      exfalso
      cases hcls : lookupFields env (String.mk s0) <;> simp_all
    · rw [if_neg hgsv] at h ⊢
      by_cases hgrs : String.mk s0 = "GRS" ∧ g2 = true
      · rw [if_pos hgrs] at h
        exfalso
        cases hcls : lookupFields env (String.mk s0) <;> simp_all
      · rw [if_neg hgrs] at h ⊢
        cases hcls : lookupFields env (String.mk s0) with
        | none =>
          simp only [hcls] at h ⊢
          simp only [Except.error.injEq, PyError.sentenceTypeError.injEq] at h
          rw [h.1]
        | some fs =>
          simp only [hcls] at h
          exact absurd h (by simp)

/-- **C10.** Case normalization: the grammar matches case-insensitively and
`parse` uppercases the type identifier before classification, so (with the
default `check=false`) a line parses to the same talker, sentence code and
registry-lookup result — hence the same effective schema — as the same line
written in (ASCII) uppercase; the data fields are the uppercased originals.
Likewise, a line failing with `SentenceTypeError` fails with the same
message (same uppercased code) on the uppercased line. -/
theorem C10_case_normalization :
    ∀ (env : Env) (line : List Char) (g1 g2 : Bool),
      (∀ (t c : String) (d : List String) (f : Fields),
        parseChars env line false g1 g2 = .ok (.talker t c d f) →
        parseChars env (pyUpper line) false g1 g2 =
          .ok (.talker t c (d.map pyUpperStr) f)) ∧
      (∀ msg dat, parseChars env line false g1 g2 =
          .error (.sentenceTypeError msg dat) →
        parseChars env (pyUpper line) false g1 g2 =
          .error (.sentenceTypeError msg (String.mk (pyUpper line)))) := by
  intro env line g1 g2
  rcases hm : sentenceMatch line with _ | m
  · constructor
    · intro t c d f h
      simp only [parseChars, hm] at h
      exact absurd h (by simp)
    · intro msg dat h
      simp only [parseChars, hm] at h
      exact absurd h (by simp)
  · have hm2 : sentenceMatch (pyUpper line) = some (upperMR m) := by
      rw [sentenceMatch_upper, hm]
      rfl
    constructor
    · intro t c d f h
      rw [parseChars_false_eq_classify hm] at h
      rw [parseChars_false_eq_classify hm2]
      rw [show pyUpper (upperMR m).sentence_type = pyUpper m.sentence_type from
        pyUpper_idem m.sentence_type]
      rw [show (upperMR m).data = pyUpper m.data from rfl]
      exact classify_upper_talker h
    · intro msg dat h
      rw [parseChars_false_eq_classify hm] at h
      rw [parseChars_false_eq_classify hm2]
      rw [show pyUpper (upperMR m).sentence_type = pyUpper m.sentence_type from
        pyUpper_idem m.sentence_type]
      exact classify_upper_ste h

/-- Witness for `C10_case_normalization`: the lowercase line `"$gpgga,1"`
parses like `"$GPGGA,1"`. -/
theorem C10_case_normalization_witness :
    parseChars (⟨[("GGA", [])], []⟩ : Env)
      (pyUpper ("$gpgga,1" : String).data) false false false =
      .ok (.talker "GP" "GGA" ((["1"] : List String).map pyUpperStr) []) :=
  (C10_case_normalization ⟨[("GGA", [])], []⟩ ("$gpgga,1" : String).data
    false false).1 "GP" "GGA" ["1"] [] rfl

/-! ## Round-trip machinery -/

theorem map_data_map_mk (l : List (List Char)) :
    (l.map String.mk).map String.data = l := by
  induction l with
  | nil => rfl
  | cons a t ih => simp only [List.map_cons, ih]

theorem talkerMatch_some_shape {l t0 s0 : List Char}
    (h : talkerMatch l = some (t0, s0)) :
    ∃ a b e1 e2 e3, t0 = [a, b] ∧ s0 = [e1, e2, e3] ∧
      l = [a, b, e1, e2, e3, ','] ∧
      isWordChar a = true ∧ isWordChar b = true ∧ isWordChar e1 = true ∧
      isWordChar e2 = true ∧ isWordChar e3 = true := by
  rcases l with _ | ⟨a, l⟩
  · exact absurd h (by simp [talkerMatch])
  rcases l with _ | ⟨b, l⟩
  · exact absurd h (by simp [talkerMatch])
  rcases l with _ | ⟨e1, l⟩
  · exact absurd h (by simp [talkerMatch])
  rcases l with _ | ⟨e2, l⟩
  · exact absurd h (by simp [talkerMatch])
  rcases l with _ | ⟨e3, l⟩
  · exact absurd h (by simp [talkerMatch])
  rcases l with _ | ⟨e4, l⟩
  · exact absurd h (by simp [talkerMatch])
  rcases l with _ | ⟨x, l⟩
  · simp only [talkerMatch] at h
    split at h
    · next hc =>
      simp only [Option.some.injEq, Prod.mk.injEq] at h
      simp only [Bool.and_eq_true, beq_iff_eq] at hc
      obtain ⟨⟨⟨⟨⟨w0, w1⟩, w2⟩, w3⟩, w4⟩, hcomma⟩ := hc
      subst hcomma
      exact ⟨a, b, e1, e2, e3, h.1.symm, h.2.symm, rfl, w0, w1, w2, w3, w4⟩
    · exact absurd h (by simp)
  · exact absurd h (by simp [talkerMatch])

theorem tryTalker_some_shape {cs st rest : List Char}
    (h : tryTalker cs = some (st, rest)) :
    ∃ c0 c1 c2 c3 c4, st = [c0, c1, c2, c3, c4, ','] ∧ cs = st ++ rest ∧
      isWordChar c0 = true ∧ isWordChar c1 = true ∧ isWordChar c2 = true ∧
      isWordChar c3 = true ∧ isWordChar c4 = true := by
  rcases cs with _ | ⟨c0, cs⟩
  · exact absurd h (by simp [tryTalker])
  rcases cs with _ | ⟨c1, cs⟩
  · exact absurd h (by simp [tryTalker])
  rcases cs with _ | ⟨c2, cs⟩
  · exact absurd h (by simp [tryTalker])
  rcases cs with _ | ⟨c3, cs⟩
  · exact absurd h (by simp [tryTalker])
  rcases cs with _ | ⟨c4, cs⟩
  · exact absurd h (by simp [tryTalker])
  rcases cs with _ | ⟨c5, cs⟩
  · exact absurd h (by simp [tryTalker])
  simp only [tryTalker] at h
  split at h
  · next hc =>
    simp only [Option.some.injEq, Prod.mk.injEq] at h
    simp only [Bool.and_eq_true, beq_iff_eq] at hc
    obtain ⟨⟨⟨⟨⟨w0, w1⟩, w2⟩, w3⟩, w4⟩, hcomma⟩ := hc
    subst hcomma
    obtain ⟨hst, hrest⟩ := h
    subst hrest
    exact ⟨c0, c1, c2, c3, c4, hst.symm, by rw [← hst]; rfl, w0, w1, w2, w3, w4⟩
  · exact absurd h (by simp)

theorem tryProprietary_some_length {cs st rest : List Char}
    (h : tryProprietary cs = some (st, rest)) : st.length = 4 := by
  rcases cs with _ | ⟨c0, cs⟩
  · exact absurd h (by simp [tryProprietary])
  rcases cs with _ | ⟨c1, cs⟩
  · exact absurd h (by simp [tryProprietary])
  rcases cs with _ | ⟨c2, cs⟩
  · exact absurd h (by simp [tryProprietary])
  rcases cs with _ | ⟨c3, cs⟩
  · exact absurd h (by simp [tryProprietary])
  simp only [tryProprietary] at h
  split at h
  · simp only [Option.some.injEq, Prod.mk.injEq] at h
    rw [← h.1]
    rfl
  · exact absurd h (by simp)

theorem tryQuery_some_length {cs st rest : List Char}
    (h : tryQuery cs = some (st, rest)) : st.length = 9 := by
  rcases cs with _ | ⟨c0, cs⟩
  · exact absurd h (by simp [tryQuery])
  rcases cs with _ | ⟨c1, cs⟩
  · exact absurd h (by simp [tryQuery])
  rcases cs with _ | ⟨c2, cs⟩
  · exact absurd h (by simp [tryQuery])
  rcases cs with _ | ⟨c3, cs⟩
  · exact absurd h (by simp [tryQuery])
  rcases cs with _ | ⟨c4, cs⟩
  · exact absurd h (by simp [tryQuery])
  rcases cs with _ | ⟨c5, cs⟩
  · exact absurd h (by simp [tryQuery])
  rcases cs with _ | ⟨c6, cs⟩
  · exact absurd h (by simp [tryQuery])
  rcases cs with _ | ⟨c7, cs⟩
  · exact absurd h (by simp [tryQuery])
  rcases cs with _ | ⟨c8, cs⟩
  · exact absurd h (by simp [tryQuery])
  simp only [tryQuery] at h
  split at h
  · simp only [Option.some.injEq, Prod.mk.injEq] at h
    rw [← h.1]
    rfl
  · exact absurd h (by simp)

theorem matchType_alt3 {cs st rest : List Char}
    (h : matchType cs = some (st, rest)) (hlen : st.length = 6) :
    tryProprietary cs = none ∧ tryQuery cs = none ∧
      tryTalker cs = some (st, rest) := by
  unfold matchType at h
  cases hp : tryProprietary cs with
  | some p =>
    rw [hp] at h
    simp only [Option.orElse] at h
    injection h with h
    subst h
    rw [tryProprietary_some_length hp] at hlen
    omega
  | none =>
    rw [hp] at h
    simp only [Option.orElse] at h
    cases hq : tryQuery cs with
    | some q =>
      rw [hq] at h
      simp only [Option.orElse] at h
      injection h with h
      subst h
      rw [tryQuery_some_length hq] at hlen
      omega
    | none =>
      rw [hq] at h
      simp only [Option.orElse] at h
      exact ⟨rfl, rfl, h⟩

theorem tryProprietary_none_cond {c0 c1 c2 c3 : Char} {r : List Char}
    (h : tryProprietary (c0 :: c1 :: c2 :: c3 :: r) = none) :
    (eqCI c0 'P' && isWordChar c1 && isWordChar c2 && isWordChar c3) = false := by
  cases hb : (eqCI c0 'P' && isWordChar c1 && isWordChar c2 && isWordChar c3) with
  | false => rfl
  | true =>
    simp only [tryProprietary, hb] at h
    exact absurd h (by simp)

theorem tryQuery_none_cond {c0 c1 c2 c3 c4 c5 c6 c7 c8 : Char} {r : List Char}
    (h : tryQuery (c0 :: c1 :: c2 :: c3 :: c4 :: c5 :: c6 :: c7 :: c8 :: r) = none) :
    (isWordChar c0 && isWordChar c1 && isWordChar c2 && isWordChar c3 &&
      eqCI c4 'Q' && (c5 == ',') && isWordChar c6 && isWordChar c7 &&
      isWordChar c8) = false := by
  cases hb : (isWordChar c0 && isWordChar c1 && isWordChar c2 && isWordChar c3 &&
      eqCI c4 'Q' && (c5 == ',') && isWordChar c6 && isWordChar c7 &&
      isWordChar c8) with
  | false => rfl
  | true =>
    simp only [tryQuery, hb] at h
    exact absurd h (by simp)

theorem takeWhile_star_append {xs ys : List Char}
    (hxs : ∀ x ∈ xs, (x != '*') = true) :
    (xs ++ '*' :: ys).takeWhile (· != '*') = xs ∧
    (xs ++ '*' :: ys).dropWhile (· != '*') = '*' :: ys := by
  induction xs with
  | nil =>
    constructor
    · rfl
    · rfl
  | cons a t ih =>
    have ha := hxs a (List.mem_cons_self a t)
    have iht := ih fun x hx => hxs x (List.mem_cons_of_mem a hx)
    constructor
    · simp only [List.cons_append, List.takeWhile_cons, ha, if_pos]
      rw [iht.1]
    · simp only [List.cons_append, List.dropWhile_cons, ha, if_pos]
      exact iht.2

theorem sentenceMatch_dollar (body : List Char) :
    sentenceMatch ('$' :: body) = matchAfterDollar body := by
  simp only [sentenceMatch]
  rw [List.dropWhile_cons, if_neg (by decide)]
  rfl

theorem sentenceMatch_sublist_mAD {line : List Char} {m : MatchResult}
    (h : sentenceMatch line = some m) :
    ∃ cs, matchAfterDollar cs = some m ∧ cs.Sublist line := by
  simp only [sentenceMatch] at h
  split at h
  · next r heq =>
    refine ⟨r, h, ?_⟩
    have h1 : ('$' :: r).Sublist line := by
      rw [← heq]
      exact List.dropWhile_sublist _
    exact (List.sublist_cons_self '$' r).trans h1
  · exact ⟨_, h, List.dropWhile_sublist _⟩

theorem classify_talker_shape {env : Env} {st ds : List Char}
    {d0 : List String} {g1 g2 : Bool} {line : List Char} {t c : String}
    {dd : List String} {f : Fields}
    (h : classify env st ds d0 g1 g2 line = .ok (.talker t c dd f)) :
    ∃ t0 s0 decl, talkerMatch st = some (t0, s0) ∧ t = String.mk t0 ∧
      c = String.mk s0 ∧ dd = d0 ∧ lookupFields env c = some decl := by
  rcases ht : talkerMatch st with _ | ⟨t0, s0⟩
  · exfalso
    simp only [classify, ht] at h
    split at h
    · split at h
      · exact absurd h (by simp)
      · unfold propStep at h
        split at h <;> simp_all
    · unfold propStep at h
      split at h <;> simp_all
  · refine ⟨t0, s0, ?_⟩
    simp only [classify, ht] at h
    by_cases hgsv : String.mk s0 = "GSV" ∧ g1 = true
    · rw [if_pos hgsv] at h
      cases hcls : lookupFields env (String.mk s0) with
      | none =>
        simp only [hcls] at h
        exact absurd h (by simp)
      | some fs =>
        simp only [hcls] at h
        simp only [Except.ok.injEq, Sentence.talker.injEq] at h
        obtain ⟨h1, h2, h3, _⟩ := h
        exact ⟨fs, rfl, h1.symm, h2.symm, h3.symm, h2 ▸ hcls⟩
    · rw [if_neg hgsv] at h
      by_cases hgrs : String.mk s0 = "GRS" ∧ g2 = true
      · rw [if_pos hgrs] at h
        cases hcls : lookupFields env (String.mk s0) with
        | none =>
          simp only [hcls] at h
          exact absurd h (by simp)
        | some fs =>
          simp only [hcls] at h
          simp only [Except.ok.injEq, Sentence.talker.injEq] at h
          obtain ⟨h1, h2, h3, _⟩ := h
          exact ⟨fs, rfl, h1.symm, h2.symm, h3.symm, h2 ▸ hcls⟩
      · rw [if_neg hgrs] at h
        cases hcls : lookupFields env (String.mk s0) with
        | none =>
          simp only [hcls] at h
          exact absurd h (by simp)
        | some fs =>
          simp only [hcls] at h
          simp only [Except.ok.injEq, Sentence.talker.injEq] at h
          obtain ⟨h1, h2, h3, _⟩ := h
          exact ⟨fs, rfl, h1.symm, h2.symm, h3.symm, h2 ▸ hcls⟩

theorem matchAfterDollar_eq_of {cs st rest : List Char} {h1x h2x : Char}
    (hmt : matchType cs = some (st, rest))
    (hdr : rest.dropWhile (· != '*') = ['*', h1x, h2x])
    (hh1 : isHexUD h1x = true) (hh2 : isHexUD h2x = true) :
    matchAfterDollar cs = some ⟨st ++ rest.takeWhile (· != '*'), st,
      rest.takeWhile (· != '*'), some [h1x, h2x]⟩ := by
  simp only [matchAfterDollar, hmt, hdr]
  split
  · rfl
  · next hne => exact absurd (by simp [hh1, hh2]) hne

theorem rt_tryProprietary_none {a b e1 e2 e3 : Char} {tail : List Char}
    (hP : eqCI a 'P' = false) :
    tryProprietary (a :: b :: e1 :: e2 :: e3 :: ',' :: tail) = none := by
  simp [tryProprietary, hP]

theorem rt_tryQuery_none {a b e1 e2 e3 c4 h1 h2 : Char} {data : List Char}
    (he3 : eqCI e3 'Q' = eqCI c4 'Q')
    (horig : ∀ d0 d1 d2 dr, data = d0 :: d1 :: d2 :: dr →
      eqCI c4 'Q' = true → isWordChar d0 = true → isWordChar d1 = true →
      isWordChar d2 = true → False) :
    tryQuery (a :: b :: e1 :: e2 :: e3 :: ',' :: (data ++ ['*', h1, h2])) =
      none := by
  rcases data with _ | ⟨d0, _ | ⟨d1, _ | ⟨d2, dr⟩⟩⟩
  · simp [tryQuery, show isWordChar '*' = false from rfl]
  · simp [tryQuery, show isWordChar '*' = false from rfl]
  · simp [tryQuery, show isWordChar '*' = false from rfl]
  · have hfalse : ¬((isWordChar a && isWordChar b && isWordChar e1 &&
        isWordChar e2 && eqCI e3 'Q' && (',' == ',') && isWordChar d0 &&
        isWordChar d1 && isWordChar d2) = true) := by
      intro hcond
      simp only [Bool.and_eq_true] at hcond
      obtain ⟨⟨⟨⟨⟨⟨⟨⟨hwa, hwb⟩, hwe1⟩, hwe2⟩, hQ⟩, hcm⟩, hw0⟩, hw1⟩, hw2⟩ :=
        hcond
      rw [he3] at hQ
      exact horig d0 d1 d2 dr rfl hQ hw0 hw1 hw2
    show tryQuery (a :: b :: e1 :: e2 :: e3 :: ',' :: d0 :: d1 :: d2 ::
      (dr ++ ['*', h1, h2])) = none
    simp only [tryQuery]
    rw [if_neg hfalse]

/-- **C1 (amended).** Round trip for ASCII lines: for every line consisting
of ASCII characters that `parse` accepts as a talker sentence `s`, with no
field modified, parsing `s.render()` (with defaults) succeeds, yields a
talker sentence with the same talker, code and data (only the effective
schema may differ, reverting to the declared one), and re-rendering it
reproduces `s.render()` exactly. -/
theorem C1_round_trip :
    ∀ (env : Env) (line : List Char) (check g1 g2 : Bool)
      (t c : String) (d : List String) (f : Fields),
      parseChars env line check g1 g2 = .ok (.talker t c d f) →
      (∀ ch ∈ line, ch.toNat < 128) →
      ∃ f2, parseChars env (renderS (.talker t c d f)).data false false false =
          .ok (.talker t c d f2) ∧
        renderS (.talker t c d f2) = renderS (.talker t c d f) := by
  intro env line check g1 g2 t c d f h hascii
  rcases hm : sentenceMatch line with _ | m
  · simp only [parseChars, hm] at h
    exact absurd h (by simp)
  have hcl : classify env (pyUpper m.sentence_type) m.data
      ((splitComma m.data).map String.mk) g1 g2 line = .ok (.talker t c d f) := by
    simp only [parseChars, hm] at h
    split at h
    · split at h
      · exact absurd h (by simp)
      · exact h
    · split at h
      · exact absurd h (by simp)
      · exact h
  obtain ⟨t0, s0, decl, htm, ht_eq, hc_eq, hd_eq, hlook⟩ :=
    classify_talker_shape hcl
  obtain ⟨a, b, e1, e2, e3, ht0, hs0, hU, wa, wb, we1, we2, we3⟩ :=
    talkerMatch_some_shape htm
  obtain ⟨cs, hmad, hsub⟩ := sentenceMatch_sublist_mAD hm
  obtain ⟨st, rest, hmt, hst_eq, hdata_eq, hnmea_eq, hck⟩ :=
    matchAfterDollar_some hmad
  have hstlen : st.length = 6 := by
    have h6 : m.sentence_type.length = 6 := by
      have := congrArg List.length hU
      simpa [pyUpper] using this
    rw [← hst_eq]
    exact h6
  obtain ⟨hpnone, hqnone, httalker⟩ := matchType_alt3 hmt hstlen
  obtain ⟨c0, c1, c2, c3, c4, hstsh, hcs_eq, v0, v1, v2, v3, v4⟩ :=
    tryTalker_some_shape httalker
  have hUst : pyUpper st = [a, b, e1, e2, e3, ','] := by
    rw [← hst_eq]
    exact hU
  have hcomp : [pyUpperChar c0, pyUpperChar c1, pyUpperChar c2,
      pyUpperChar c3, pyUpperChar c4, pyUpperChar ','] =
      [a, b, e1, e2, e3, ','] := by
    rw [← hUst, hstsh]
    rfl
  simp only [List.cons.injEq, and_true] at hcomp
  obtain ⟨ha, hb, he1, he2, he3, -⟩ := hcomp
  -- the proprietary alternative fails on the rendered string
  have hpnone' : tryProprietary (c0 :: c1 :: c2 :: c3 ::
      (c4 :: ',' :: rest)) = none := by
    rw [hcs_eq, hstsh] at hpnone
    exact hpnone
  have hPfalse : eqCI a 'P' = false := by
    have hcond := tryProprietary_none_cond hpnone'
    simp only [v1, v2, v3, Bool.and_true] at hcond
    rw [← ha, eqCI_pyUpperChar c0 'P' (by decide)]
    exact hcond
  -- data facts
  have hdstar : ∀ x ∈ m.data, (x != '*') = true := by
    rw [hdata_eq]
    exact fun x hx => List.mem_takeWhile_imp (p := fun y => y != '*') hx
  have hdascii : ∀ x ∈ m.data, x.toNat < 128 := by
    intro x hx
    apply hascii
    apply hsub.subset
    rw [hcs_eq]
    apply List.mem_append_right
    exact (List.takeWhile_sublist _).subset (hdata_eq ▸ hx)
  have hUascii : ∀ x ∈ ([a, b, e1, e2, e3, ','] : List Char),
      x.toNat < 256 := by
    intro x hx
    simp only [List.mem_cons, List.not_mem_nil, or_false] at hx
    rcases hx with rfl | rfl | rfl | rfl | rfl | rfl
    · exact lt_trans (isWordChar_toNat_lt x wa) (by omega)
    · exact lt_trans (isWordChar_toNat_lt x wb) (by omega)
    · exact lt_trans (isWordChar_toNat_lt x we1) (by omega)
    · exact lt_trans (isWordChar_toNat_lt x we2) (by omega)
    · exact lt_trans (isWordChar_toNat_lt x we3) (by omega)
    · decide
  have hcks : checksum ([a, b, e1, e2, e3, ','] ++ m.data) < 256 := by
    apply checksum_lt_256
    intro x hx
    rcases List.mem_append.mp hx with h1 | h2
    · exact hUascii x h1
    · exact lt_trans (hdascii x h2) (by omega)
  have hfmt : fmt02X (checksum ([a, b, e1, e2, e3, ','] ++ m.data)) =
      [hexDigit (checksum ([a, b, e1, e2, e3, ','] ++ m.data) / 16),
       hexDigit (checksum ([a, b, e1, e2, e3, ','] ++ m.data) % 16)] :=
    fmt02X_of_lt_256 hcks
  have hhex1 : isHexUD (hexDigit
      (checksum ([a, b, e1, e2, e3, ','] ++ m.data) / 16)) = true :=
    hexDigit_isHexUD (by omega)
  have hhex2 : isHexUD (hexDigit
      (checksum ([a, b, e1, e2, e3, ','] ++ m.data) % 16)) = true :=
    hexDigit_isHexUD (Nat.mod_lt _ (by omega))
  -- the render equation
  have hjoin : joinComma (d.map String.data) = m.data := by
    rw [hd_eq, map_data_map_mk, joinComma_splitComma]
  have hid : identifier (.talker t c d f) = [a, b, e1, e2, e3, ','] := by
    show t.data ++ c.data ++ [','] = _
    rw [ht_eq, hc_eq, show (String.mk t0).data = t0 from rfl,
      show (String.mk s0).data = s0 from rfl, ht0, hs0]
    rfl
  have hres0 : identifier (.talker t c d f) ++ joinComma (d.map String.data) =
      [a, b, e1, e2, e3, ','] ++ m.data := by
    rw [hid, hjoin]
  have hrender : renderChars (.talker t c d f) true true none =
      '$' :: ([a, b, e1, e2, e3, ','] ++
        (m.data ++ '*' :: fmt02X (checksum ([a, b, e1, e2, e3, ','] ++ m.data)))) := by
    calc renderChars (.talker t c d f) true true none
        = '$' :: ((identifier (.talker t c d f) ++ joinComma (d.map String.data)) ++
            '*' :: fmt02X (checksum (identifier (.talker t c d f) ++
              joinComma (d.map String.data)))) := rfl
      _ = '$' :: (([a, b, e1, e2, e3, ','] ++ m.data) ++
            '*' :: fmt02X (checksum ([a, b, e1, e2, e3, ','] ++ m.data))) := by
          rw [hres0]
      _ = _ := by rw [List.append_assoc]
  -- alternation on the rendered body
  have hP2 : tryProprietary ([a, b, e1, e2, e3, ','] ++
      (m.data ++ '*' :: fmt02X (checksum ([a, b, e1, e2, e3, ','] ++ m.data)))) =
      none := rt_tryProprietary_none hPfalse
  have hQ2 : tryQuery ([a, b, e1, e2, e3, ','] ++
      (m.data ++ '*' :: fmt02X (checksum ([a, b, e1, e2, e3, ','] ++ m.data)))) =
      none := by
    rw [hfmt]
    show tryQuery (a :: b :: e1 :: e2 :: e3 :: ',' :: (m.data ++
      ['*', hexDigit (checksum ([a, b, e1, e2, e3, ','] ++ m.data) / 16),
        hexDigit (checksum ([a, b, e1, e2, e3, ','] ++ m.data) % 16)])) = none
    refine @rt_tryQuery_none a b e1 e2 e3 c4 _ _ m.data ?_ ?_
    · rw [← he3, eqCI_pyUpperChar c4 'Q' (by decide)]
    · intro d0 d1 d2 dr hdata hq hw0 hw1 hw2
      have hrest : rest = d0 :: d1 :: d2 :: (dr ++ rest.dropWhile (· != '*')) := by
        conv_lhs => rw [← List.takeWhile_append_dropWhile (· != '*') rest]
        rw [← hdata_eq, hdata]
        rfl
      have hqnone' : tryQuery (c0 :: c1 :: c2 :: c3 :: c4 :: ',' :: d0 :: d1 ::
          d2 :: (dr ++ rest.dropWhile (· != '*'))) = none := by
        rw [hcs_eq, hstsh, hrest] at hqnone
        exact hqnone
      have hcond := tryQuery_none_cond hqnone'
      rw [v0, v1, v2, v3, hq, hw0, hw1, hw2] at hcond
      simp at hcond
  have hT2 : tryTalker ([a, b, e1, e2, e3, ','] ++
      (m.data ++ '*' :: fmt02X (checksum ([a, b, e1, e2, e3, ','] ++ m.data)))) =
      some ([a, b, e1, e2, e3, ','],
        m.data ++ '*' :: fmt02X (checksum ([a, b, e1, e2, e3, ','] ++ m.data))) := by
    show (if isWordChar a && isWordChar b && isWordChar e1 && isWordChar e2 &&
        isWordChar e3 && (',' == ',') then
        some ([a, b, e1, e2, e3, ','],
          m.data ++ '*' :: fmt02X (checksum ([a, b, e1, e2, e3, ','] ++ m.data)))
      else none) = _
    rw [if_pos (by simp [wa, wb, we1, we2, we3])]
  have hmt2 : matchType ([a, b, e1, e2, e3, ','] ++
      (m.data ++ '*' :: fmt02X (checksum ([a, b, e1, e2, e3, ','] ++ m.data)))) =
      some ([a, b, e1, e2, e3, ','],
        m.data ++ '*' :: fmt02X (checksum ([a, b, e1, e2, e3, ','] ++ m.data))) := by
    unfold matchType
    rw [hP2, hQ2, hT2]
    rfl
  obtain ⟨htk2, hdr2⟩ :=
    @takeWhile_star_append m.data
      (fmt02X (checksum ([a, b, e1, e2, e3, ','] ++ m.data))) hdstar
  have hmad2 : matchAfterDollar ([a, b, e1, e2, e3, ','] ++
      (m.data ++ '*' :: fmt02X (checksum ([a, b, e1, e2, e3, ','] ++ m.data)))) =
      some ⟨[a, b, e1, e2, e3, ','] ++ m.data, [a, b, e1, e2, e3, ','], m.data,
        some [hexDigit (checksum ([a, b, e1, e2, e3, ','] ++ m.data) / 16),
          hexDigit (checksum ([a, b, e1, e2, e3, ','] ++ m.data) % 16)]⟩ := by
    have hx := matchAfterDollar_eq_of hmt2 (by rw [hdr2, hfmt]) hhex1 hhex2
    rw [htk2] at hx
    exact hx
  have hsm2 : sentenceMatch (renderChars (.talker t c d f) true true none) =
      some ⟨[a, b, e1, e2, e3, ','] ++ m.data, [a, b, e1, e2, e3, ','], m.data,
        some [hexDigit (checksum ([a, b, e1, e2, e3, ','] ++ m.data) / 16),
          hexDigit (checksum ([a, b, e1, e2, e3, ','] ++ m.data) % 16)]⟩ := by
    rw [hrender, sentenceMatch_dollar, hmad2]
  -- evaluate the second parse
  have hUid : pyUpper [a, b, e1, e2, e3, ','] = [a, b, e1, e2, e3, ','] := by
    rw [← hUst]
    exact pyUpper_idem st
  have htm' : talkerMatch [a, b, e1, e2, e3, ','] = some (t0, s0) := hU ▸ htm
  have hlook' : lookupFields env (String.mk s0) = some decl := hc_eq ▸ hlook
  refine ⟨decl, ?_, rfl⟩
  show parseChars env (renderChars (.talker t c d f) true true none) false false false = _
  simp only [parseChars, hsm2]
  rw [if_neg (by simp)]
  simp only [classify, hUid, htm']
  rw [if_neg (by simp), if_neg (by simp)]
  simp only [hlook']
  rw [← ht_eq, ← hc_eq, ← hd_eq]

/-- Witness for `C1_round_trip` on `"$GPGGA,1,2"` with `GGA` registered. -/
theorem C1_round_trip_witness :
    ∃ f2, parseChars (⟨[("GGA", [])], []⟩ : Env)
        (renderS (.talker "GP" "GGA" ["1", "2"] [])).data false false false =
        .ok (.talker "GP" "GGA" ["1", "2"] f2) ∧
      renderS (.talker "GP" "GGA" ["1", "2"] f2) =
        renderS (.talker "GP" "GGA" ["1", "2"] []) :=
  C1_round_trip ⟨[("GGA", [])], []⟩ ("$GPGGA,1,2" : String).data false false
    false "GP" "GGA" ["1", "2"] [] rfl (by decide)

end PyNmea
